import Mathlib

/-!
Verification of the longitudinal beam-dynamics kernel (BLonD): a shallow
embedding of `beams/beams.py` and `trackers/longitudinal_tracker.py`.

Machine floating-point numbers are idealised as exact field elements: the
beam/statistics layer is stated over an arbitrary linear ordered field `K`
(instantiated at `ℚ` for concrete evaluation and at `ℝ` where the code uses
transcendental functions), and the tracker layer over `ℝ` since it uses
`sin`, `cos` and `π`.  Python scalar division, which raises
`ZeroDivisionError` on a zero denominator, is embedded as an `Option`-valued
division where that behaviour is observable (the `Beam` constructor).
-/

namespace BLonD

/-- The two physical constants imported from `scipy.constants`
(`from scipy.constants import c, e`), an external constants provider:
the speed of light and the elementary charge (CODATA/SI values). -/
def scipy_c : ℝ := 299792458

/-- Elementary charge, see `scipy_c`. -/
noncomputable def scipy_e : ℝ := 1.602176634e-19

/-- Python scalar (true) division: raises `ZeroDivisionError` when the
denominator is zero, embedded as `none`. -/
def pyDiv {K : Type} [DivisionRing K] [DecidableEq K] (a b : K) : Option K :=
  if b = 0 then none else some (a / b)

/-- The slice of the external `GeneralParameters` configuration object read by
`Beam.__init__`: scalars `mass`, `charge` and the 2-D-indexable programmes
`beta`, `gamma`, `energy`, `momentum` (the constructor reads entry `[0][0]`). -/
structure GeneralParameters (K : Type) where
  mass : K
  charge : K
  beta : List (List K)
  gamma : List (List K)
  energy : List (List K)
  momentum : List (List K)

/-- The `Beam` object of `beams/beams.py`: per-macro-particle coordinates
`dt`, `dE`, the identifier array `id` (0 marks a lost particle), the frozen
synchronous-particle snapshot, and the statistics fields.  `epsn_rms_l` is
only created by `statistics()`, hence it is an `Option` that the constructor
leaves at `none`. -/
structure Beam (K : Type) where
  mass : K
  charge : K
  beta : K
  gamma : K
  energy : K
  momentum : K
  dt : List K
  dE : List K
  mean_dt : K
  mean_dE : K
  sigma_dt : K
  sigma_dE : K
  intensity : K
  n_macroparticles : ℕ
  ratio : K
  n_macroparticles_lost : ℕ
  id : List ℤ
  epsn_rms_l : Option K

/-- `Beam.__init__`: zero coordinate arrays, ids `1..n`, snapshot of the
configuration's `[0][0]` entries, and `ratio = intensity/n_macroparticles`
(an unguarded Python scalar division, hence `none` when the macro-particle
count is zero). -/
def Beam.init {K : Type} [LinearOrderedField K]
    (gp : GeneralParameters K) (n_macroparticles : ℕ) (intensity : K) :
    Option (Beam K) :=
  (pyDiv intensity (n_macroparticles : K)).map (fun ratio =>
    { mass := gp.mass
      charge := gp.charge
      beta := (gp.beta.getD 0 []).getD 0 0
      gamma := (gp.gamma.getD 0 []).getD 0 0
      energy := (gp.energy.getD 0 []).getD 0 0
      momentum := (gp.momentum.getD 0 []).getD 0 0
      dt := List.replicate n_macroparticles 0
      dE := List.replicate n_macroparticles 0
      mean_dt := 0
      mean_dE := 0
      sigma_dt := 0
      sigma_dE := 0
      intensity := intensity
      n_macroparticles := n_macroparticles
      ratio := ratio
      n_macroparticles_lost := 0
      id := (List.range n_macroparticles).map (fun i => (i : ℤ) + 1)
      epsn_rms_l := none })

/-- `Beam.losses_longitudinal_cut(dt_min, dt_max)`:
`id[np.where((dt - dt_min)*(dt_max - dt) < 0)] = 0`. -/
def Beam.losses_longitudinal_cut {K : Type} [LinearOrderedField K]
    (b : Beam K) (dt_min dt_max : K) : Beam K :=
  { b with
    id := List.zipWith
            (fun t j => if (t - dt_min) * (dt_max - t) < 0 then 0 else j)
            b.dt b.id }

/-- `Beam.losses_energy_cut(dE_min, dE_max)`:
`id[np.where((dE - dE_min)*(dE_max - dE) < 0)] = 0`. -/
def Beam.losses_energy_cut {K : Type} [LinearOrderedField K]
    (b : Beam K) (dE_min dE_max : K) : Beam K :=
  { b with
    id := List.zipWith
            (fun x j => if (x - dE_min) * (dE_max - x) < 0 then 0 else j)
            b.dE b.id }

/-- `np.where(cond(arrayOf i))[0]`: the (index-ordered) list of indices of an
array of length `n` satisfying a condition; used by `Beam.statistics` with
`id != 0` and `id == 0`. -/
def npWhere (n : ℕ) (cond : ℕ → Bool) : List ℕ :=
  (List.range n).filter cond

/-- Numpy fancy indexing `xs[itemindex]`. -/
def npSelect {K : Type} [Zero K] (xs : List K) (itemindex : List ℕ) :
    List K :=
  itemindex.map (fun i => xs.getD i 0)

/-- `np.mean`: arithmetic mean (sum over length; `0/0` on an empty array,
numpy's nan being idealised as the junk value of division by zero). -/
noncomputable def npMean (xs : List ℝ) : ℝ := xs.sum / xs.length

/-- `np.std`: population standard deviation,
`sqrt(mean((x - mean(x))^2))`. -/
noncomputable def npStd (xs : List ℝ) : ℝ :=
  Real.sqrt (npMean (xs.map (fun x => (x - npMean xs) ^ 2)))

/-- `Beam.statistics()`: means and population standard deviations of `dt`,
`dE` over the indices whose `id` is nonzero (`itemindex = np.where(id != 0)`),
the r.m.s. emittance `epsn_rms_l = π·sigma_dE·sigma_dt`, and the lost count
`len(np.where(id == 0)[0])`. -/
noncomputable def Beam.statistics (b : Beam ℝ) : Beam ℝ :=
  let itemindex := npWhere b.id.length (fun i => b.id.getD i 0 != 0)
  let sigma_dt := npStd (npSelect b.dt itemindex)
  let sigma_dE := npStd (npSelect b.dE itemindex)
  { b with
    mean_dt := npMean (npSelect b.dt itemindex)
    mean_dE := npMean (npSelect b.dE itemindex)
    sigma_dt := sigma_dt
    sigma_dE := sigma_dE
    epsn_rms_l := some (Real.pi * sigma_dE * sigma_dt)
    n_macroparticles_lost :=
      (npWhere b.id.length (fun i => b.id.getD i 0 == 0)).length }

/-- Specification-side index set: the indices of the `id` array holding a
nonzero (alive) identifier.  Used to state what `statistics` computes. -/
def aliveFinset (id : List ℤ) : Finset ℕ :=
  (Finset.range id.length).filter (fun i => id.getD i 0 ≠ 0)

/-- Specification-side index set: the indices of the `id` array holding the
lost sentinel 0. -/
def lostFinset (id : List ℤ) : Finset ℕ :=
  (Finset.range id.length).filter (fun i => id.getD i 0 = 0)

/-- Modelled from the spec: the external ring/RF configuration collaborator
(`trackers.ring_and_RFstation`, not among the supplied source files).  Per
§6 of the spec it exposes the RF parameter lists, ring-wide scalars, the
turn-start/turn-end synchronous momenta `p0_i`/`p0_f`, a mutable turn
`counter`, and the methods `beta_i(beam)`, `beta_f(beam)`, `eta(beam, delta)`
and `_eta0(beam, alpha_array)`.  The methods are embedded as opaque function
fields; since the synchronous beta at turn boundaries depends on the ring's
mutable turn counter, `beta_i`/`beta_f` are functions of the counter value at
the moment of the call, and `eta` is a per-particle function of the particle's
relative-momentum offset `delta`. -/
structure RingAndRFstation where
  harmonic : List ℝ
  voltage : List ℝ
  phi_offset : List ℝ
  circumference : ℝ
  length : ℝ
  alpha_array : List ℝ
  p0_i : ℝ
  p0_f : ℝ
  counter : ℤ
  beta_i : ℤ → ℝ
  beta_f : ℤ → ℝ
  eta : ℝ → ℝ
  eta0 : List ℝ → ℝ

/-- The per-particle attribute set that the tracking elements of
`trackers/longitudinal_tracker.py` assume on the object passed to `track`:
phase/offset coordinates `theta`, `delta`, the energy offsets `dE`, the
`LinearMap` coordinates `z`, `dp`, and the synchronous scalars `beta`,
`gamma`.  (This is NOT the `Beam` of `beams/beams.py`; see the
attribute-model definitions below.) -/
structure TrackedBeam where
  theta : List ℝ
  delta : List ℝ
  dE : List ℝ
  z : List ℝ
  dp : List ℝ
  beta : ℝ
  gamma : ℝ

/-- Mutable state threaded through one tracking step: the shared ring/RF
configuration (whose turn counter `Kick_acceleration.track` advances) and
the tracked beam. -/
def TrackState : Type := RingAndRFstation × TrackedBeam

/-- The `Kick` element: captures `ring.harmonic[i]`, `ring.voltage[i]`,
`ring.phi_offset[i]` by value at construction. -/
structure Kick where
  harmonic : ℝ
  voltage : ℝ
  phi_offset : ℝ

/-- `Kick.__init__(ring, i)`. -/
def Kick.ofRing (ring : RingAndRFstation) (i : ℕ) : Kick :=
  { harmonic := ring.harmonic.getD i 0
    voltage := ring.voltage.getD i 0
    phi_offset := ring.phi_offset.getD i 0 }

/-- `Kick.track(beam)`:
`beam.dE += e * voltage * np.sin(harmonic * beam.theta + phi_offset)`,
elementwise over the particle arrays; the ring state is untouched. -/
noncomputable def Kick.track (k : Kick) (s : TrackState) : TrackState :=
  (s.1,
   { s.2 with
     dE := List.zipWith
             (fun de th =>
               de + scipy_e * k.voltage * Real.sin (k.harmonic * th + k.phi_offset))
             s.2.dE s.2.theta })

/-- The `Kick_acceleration` element: holds the momentum increment
`p_increment` (reset by `Longitudinal_tracker.track` before each pass). -/
structure Kick_acceleration where
  p_increment : ℝ

/-- `Kick_acceleration.track(beam)`:
`beam.dE += - (ring.beta_i(beam) + ring.beta_f(beam)) / 2 * c * p_increment`
followed by `ring.counter += 1`. -/
noncomputable def Kick_acceleration.track (ka : Kick_acceleration)
    (s : TrackState) : TrackState :=
  ({ s.1 with counter := s.1.counter + 1 },
   { s.2 with
     dE := s.2.dE.map
             (fun de =>
               de + -(s.1.beta_i s.1.counter + s.1.beta_f s.1.counter) / 2
                      * scipy_c * ka.p_increment) })

/-- Outcome of an operation that may abort the whole process: the source's
`Drift.track` prints an error and calls `sys.exit()` on an unrecognized
solver (a deliberate process termination, not a catchable exception). -/
inductive DriftResult where
  | ok : TrackState → DriftResult
  | systemExit : DriftResult

/-- The `Drift` element; its constructor stores the solver selector verbatim
(no validation at construction time). -/
structure Drift where
  solver : String

/-- `Drift.track(beam)`: dictionary dispatch on the solver string — the
`'full'` update
`theta = beta_f/beta_i * theta + 2π(1/(1 - eta(delta)·delta) - 1)·length/circumference`,
the `'simple'` update
`theta = theta + 2π·eta0(alpha_array)·delta·length/circumference`
(both elementwise over `theta`, `delta`), and on any other solver string the
`KeyError` handler prints an error and terminates the process. -/
noncomputable def Drift.track (d : Drift) (s : TrackState) : DriftResult :=
  if d.solver = "full" then
    DriftResult.ok
      (s.1,
       { s.2 with
         theta := List.zipWith
                    (fun th dl =>
                      s.1.beta_f s.1.counter / s.1.beta_i s.1.counter * th
                        + 2 * Real.pi * (1 / (1 - s.1.eta dl * dl) - 1)
                            * s.1.length / s.1.circumference)
                    s.2.theta s.2.delta })
  else if d.solver = "simple" then
    DriftResult.ok
      (s.1,
       { s.2 with
         theta := List.zipWith
                    (fun th dl =>
                      th + 2 * Real.pi * s.1.eta0 s.1.alpha_array * dl
                             * s.1.length / s.1.circumference)
                    s.2.theta s.2.delta })
  else DriftResult.systemExit

/-- The `Longitudinal_tracker` pipeline: one `Kick` per harmonic index (in
index order) built at construction, one `Kick_acceleration`, one `Drift`. -/
structure Longitudinal_tracker where
  kicks : List Kick
  solver : String

/-- `Longitudinal_tracker.__init__(ring, solver)`: builds
`kicks = [Kick(ring, i) for i in range(len(ring.harmonic))]` and stores the
solver forwarded to the `Drift`. -/
def Longitudinal_tracker.ofRing (ring : RingAndRFstation) (solver : String) :
    Longitudinal_tracker :=
  { kicks := (List.range ring.harmonic.length).map (fun i => Kick.ofRing ring i)
    solver := solver }

/-- `Longitudinal_tracker.track(beam)`: sets
`kick_acceleration.p_increment = ring.p0_f - ring.p0_i`, then tracks every
element of `kicks + [kick_acceleration] + [Drift(ring, solver)]` in order. -/
noncomputable def Longitudinal_tracker.track (t : Longitudinal_tracker)
    (s : TrackState) : DriftResult :=
  Drift.track { solver := t.solver }
    (Kick_acceleration.track { p_increment := s.1.p0_f - s.1.p0_i }
      (t.kicks.foldl (fun st k => Kick.track k st) s))

/-- The `LinearMap` alternative tracker: circumference, linear momentum
compaction `alpha`, synchrotron tune `Qs`, stored verbatim. -/
structure LinearMap where
  circumference : ℝ
  alpha : ℝ
  Qs : ℝ

/-- `LinearMap.track(beam)`: the closed-form rotation
`eta = alpha - gamma^-2`, `omega_0 = 2π·beta·c/circumference`,
`omega_s = Qs·omega_0`, `dQs = 2π·Qs`,
`z = z0·cos(dQs) - eta·c/omega_s·dp0·sin(dQs)`,
`dp = dp0·cos(dQs) + omega_s/eta/c·z0·sin(dQs)`,
elementwise over the saved copies `z0`, `dp0`.  It takes no ring/RF
configuration argument at all, so it can read no turn counter and can
advance no ring state. -/
noncomputable def LinearMap.track (m : LinearMap) (beam : TrackedBeam) :
    TrackedBeam :=
  let eta := m.alpha - beam.gamma ^ (-2 : ℤ)
  let omega_0 := 2 * Real.pi * beam.beta * scipy_c / m.circumference
  let omega_s := m.Qs * omega_0
  let dQs := 2 * Real.pi * m.Qs
  let cosdQs := Real.cos dQs
  let sindQs := Real.sin dQs
  let z0 := beam.z
  let dp0 := beam.dp
  { beam with
    z := List.zipWith
           (fun z dp => z * cosdQs - eta * scipy_c / omega_s * dp * sindQs)
           z0 dp0
    dp := List.zipWith
            (fun z dp => dp * cosdQs + omega_s / eta / scipy_c * z * sindQs)
            z0 dp0 }

/-- The exact set of instance attributes assigned by `Beam.__init__` in
`beams/beams.py` (lines 140-161), in assignment order.  Python objects have
no attributes beyond those assigned, so reading any other attribute raises
`AttributeError`. -/
def beamInitAttributes : List String :=
  ["mass", "charge", "beta", "gamma", "energy", "momentum", "dt", "dE",
   "mean_dt", "mean_dE", "sigma_dt", "sigma_dE", "intensity",
   "n_macroparticles", "ratio", "n_macroparticles_lost", "id"]

/-- The per-particle coordinate arrays among the attributes assigned by
`Beam.__init__`: only `dt`, `dE` and `id`. -/
def beamCoordinateAttributes : List String := ["dt", "dE", "id"]

/-- The beam attributes `Kick.track` reads or writes
(`beam.dE += ... np.sin(... * beam.theta + ...)`). -/
def kickTrackBeamAttributes : List String := ["dE", "theta"]

/-- The beam attributes `Drift.track` reads or writes (`beam.theta` is read
and written, `beam.delta` is read, in both solver branches). -/
def driftTrackBeamAttributes : List String := ["theta", "delta"]

/-- The beam attributes `LinearMap.track` reads or writes
(`beam.gamma`, `beam.beta` read; `beam.z`, `beam.dp` read and written). -/
def linearMapTrackBeamAttributes : List String := ["gamma", "beta", "z", "dp"]

/-- A `track(beam)` body raises `AttributeError` on a `Beam` constructed by
`Beam.__init__` exactly when it touches an attribute the constructor never
assigned. -/
def raisesAttributeError (trackAttributes : List String) : Prop :=
  ∃ a ∈ trackAttributes, a ∉ beamInitAttributes

/-- Concrete `GeneralParameters` over `ℚ` for evaluating the constructor. -/
def gpQ : GeneralParameters ℚ :=
  { mass := 1, charge := 1, beta := [[1]], gamma := [[1]],
    energy := [[1]], momentum := [[1]] }

/-- Concrete `Beam` over `ℚ` for evaluating the loss cuts:
`dt = [0, 2, 3]`, `dE = [0, 0, 5]`, `id = [1, 2, 3]`. -/
def bQ : Beam ℚ :=
  { mass := 1, charge := 1, beta := 1, gamma := 1, energy := 1, momentum := 1,
    dt := [0, 2, 3], dE := [0, 0, 5], mean_dt := 0, mean_dE := 0,
    sigma_dt := 0, sigma_dE := 0, intensity := 1, n_macroparticles := 3,
    ratio := 1, n_macroparticles_lost := 0, id := [1, 2, 3],
    epsn_rms_l := none }

/-- Concrete single-particle `Beam` over `ℝ` for evaluating `statistics`. -/
noncomputable def bR : Beam ℝ :=
  { mass := 1, charge := 1, beta := 1, gamma := 1, energy := 1, momentum := 1,
    dt := [0], dE := [0], mean_dt := 0, mean_dE := 0, sigma_dt := 0,
    sigma_dE := 0, intensity := 1, n_macroparticles := 1, ratio := 1,
    n_macroparticles_lost := 0, id := [1], epsn_rms_l := none }

/-- Concrete ring/RF configuration with a single RF system, for evaluating
the tracker pipeline. -/
noncomputable def ringW : RingAndRFstation :=
  { harmonic := [1], voltage := [1], phi_offset := [0], circumference := 1,
    length := 1, alpha_array := [0], p0_i := 0, p0_f := 0, counter := 0,
    beta_i := fun _ => 1, beta_f := fun _ => 1, eta := fun _ => 0,
    eta0 := fun _ => 0 }

/-- Concrete single-particle tracked beam for evaluating the tracker. -/
noncomputable def tbeamW : TrackedBeam :=
  { theta := [0], delta := [0], dE := [0], z := [1], dp := [1],
    beta := 1, gamma := 1 }

/-- Concrete `LinearMap` for the rotation-invariant witness:
`circumference = 1`, `alpha = 2`, `Qs = 1`. -/
noncomputable def lmapW : LinearMap := { circumference := 1, alpha := 2, Qs := 1 }

/-- Degenerate tracked beam with `beta = 0` (so `omega_s = 0`) but
`gamma = 1`, `z = [0]`, `dp = [1]`: the input on which the unrestricted
rotation-invariant claim fails. -/
noncomputable def tbeamC : TrackedBeam :=
  { theta := [], delta := [], dE := [], z := [0], dp := [1],
    beta := 0, gamma := 1 }

/-- `LinearMap` with `Qs = 1/4` (a quarter-turn rotation, `dQs = π/2`) and
`alpha = 2`, used with `tbeamC` to refute the unrestricted invariant. -/
noncomputable def lmapC : LinearMap :=
  { circumference := 1, alpha := 2, Qs := 1 / 4 }

theorem getD_zipWith {α β γ : Type} (f : α → β → γ) (xs : List α)
    (ys : List β) (i : ℕ) (hx : i < xs.length) (hy : i < ys.length)
    (da : α) (db : β) (dc : γ) :
    (List.zipWith f xs ys).getD i dc = f (xs.getD i da) (ys.getD i db) := by
  induction xs generalizing ys i with
  | nil => simp at hx
  | cons a t ih =>
    cases ys with
    | nil => simp at hy
    | cons b u =>
      cases i with
      | zero => rfl
      | succ j =>
        simp only [List.zipWith_cons_cons, List.getD_cons_succ]
        exact ih u j (by simpa using hx) (by simpa using hy)

/-- C1: `losses_longitudinal_cut(dt_min, dt_max)` zeroes `id[i]` exactly for
the indices with `(dt[i] - dt_min) * (dt_max - dt[i]) < 0`, leaves every
other entry (boundary values included) unchanged, and `losses_energy_cut`
applies the identical rule to `dE`. -/
theorem losses_cuts_mark_strictly_outside {K : Type} [LinearOrderedField K]
    (b : Beam K) (dt_min dt_max dE_min dE_max : K)
    (hdt : b.dt.length = b.id.length) (hdE : b.dE.length = b.id.length)
    (i : ℕ) (hi : i < b.id.length) :
    ((b.losses_longitudinal_cut dt_min dt_max).id.getD i 0
        = if (b.dt.getD i 0 - dt_min) * (dt_max - b.dt.getD i 0) < 0 then 0
          else b.id.getD i 0)
    ∧ (b.dt.getD i 0 = dt_min ∨ b.dt.getD i 0 = dt_max →
        (b.losses_longitudinal_cut dt_min dt_max).id.getD i 0 = b.id.getD i 0)
    ∧ (b.losses_longitudinal_cut dt_min dt_max).id.length = b.id.length
    ∧ ((b.losses_energy_cut dE_min dE_max).id.getD i 0
        = if (b.dE.getD i 0 - dE_min) * (dE_max - b.dE.getD i 0) < 0 then 0
          else b.id.getD i 0)
    ∧ (b.dE.getD i 0 = dE_min ∨ b.dE.getD i 0 = dE_max →
        (b.losses_energy_cut dE_min dE_max).id.getD i 0 = b.id.getD i 0)
    ∧ (b.losses_energy_cut dE_min dE_max).id.length = b.id.length := by
  have hbd : ∀ x lo hi' : K, x = lo ∨ x = hi' →
      ¬ ((x - lo) * (hi' - x) < 0) := by
    rintro x lo hi' (rfl | rfl) <;> simp
  have h1 : (b.losses_longitudinal_cut dt_min dt_max).id.getD i 0
      = if (b.dt.getD i 0 - dt_min) * (dt_max - b.dt.getD i 0) < 0 then 0
        else b.id.getD i 0 :=
    getD_zipWith _ b.dt b.id i (hdt ▸ hi) hi 0 0 0
  have h2 : (b.losses_energy_cut dE_min dE_max).id.getD i 0
      = if (b.dE.getD i 0 - dE_min) * (dE_max - b.dE.getD i 0) < 0 then 0
        else b.id.getD i 0 :=
    getD_zipWith _ b.dE b.id i (hdE ▸ hi) hi 0 0 0
  refine ⟨h1, ?_, ?_, h2, ?_, ?_⟩
  · intro hx; rw [h1, if_neg (hbd _ _ _ hx)]
  · simp [Beam.losses_longitudinal_cut, hdt]
  · intro hx; rw [h2, if_neg (hbd _ _ _ hx)]
  · simp [Beam.losses_energy_cut, hdE]

/-- Witness for C1 at `bQ` (`dt = [0,2,3]`, `dE = [0,0,5]`, `id = [1,2,3]`)
with cuts `[0,2]` on `dt` and `[-1,1]` on `dE`: the hypotheses hold and
particle index 2 is marked lost by both cuts. -/
theorem losses_cuts_mark_strictly_outside_witness :
    (bQ.dt.length = bQ.id.length ∧ bQ.dE.length = bQ.id.length
      ∧ 2 < bQ.id.length)
    ∧ (bQ.losses_longitudinal_cut 0 2).id.getD 2 0 = 0
    ∧ (bQ.losses_energy_cut (-1) 1).id.getD 2 0 = 0 := by
  have h := losses_cuts_mark_strictly_outside bQ 0 2 (-1) 1 rfl rfl 2 (by decide)
  refine ⟨⟨rfl, rfl, by decide⟩, ?_, ?_⟩
  · have hc : (bQ.dt.getD 2 0 - 0) * (2 - bQ.dt.getD 2 0) < 0 := by
      norm_num [bQ]
    rw [h.1, if_pos hc]
  · have hc : (bQ.dE.getD 2 0 - (-1)) * (1 - bQ.dE.getD 2 0) < 0 := by
      norm_num [bQ]
    rw [h.2.2.2.1, if_pos hc]

/-- C10 counterexample: with a zero macro-particle count the constructor does
NOT return a beam with empty sequences and a sentinel ratio — the unguarded
Python scalar division `intensity / n_macroparticles` raises
`ZeroDivisionError` (embedded: the construction yields `none`). -/
theorem beam_init_zero_count_counterexample :
    Beam.init gpQ 0 (1 : ℚ) = none
    ∧ ¬ ∃ b : Beam ℚ, Beam.init gpQ 0 (1 : ℚ) = some b := by
  have h : Beam.init gpQ 0 (1 : ℚ) = none := by simp [Beam.init, pyDiv]
  exact ⟨h, by simp [h]⟩

/-- C10 (amended): constructing a `Beam` with a zero macro-particle count
raises `ZeroDivisionError` from the unguarded ratio division, producing no
beam; for every nonzero count construction succeeds (no intensity
validation), with `ratio = intensity / n`, zero-filled `dt`/`dE` of length
`n` and ids `1..n`. -/
theorem beam_init_zero_raises_nonzero_succeeds {K : Type}
    [LinearOrderedField K] (gp : GeneralParameters K) (n : ℕ) (intensity : K) :
    (n = 0 → Beam.init gp n intensity = none)
    ∧ (n ≠ 0 → ∃ b : Beam K, Beam.init gp n intensity = some b
        ∧ b.ratio = intensity / (n : K)
        ∧ b.dt = List.replicate n 0 ∧ b.dE = List.replicate n 0
        ∧ b.id = (List.range n).map (fun i => (i : ℤ) + 1)
        ∧ b.n_macroparticles = n) := by
  constructor
  · rintro rfl; simp [Beam.init, pyDiv]
  · intro hn
    have h0 : ((n : K) ≠ 0) := Nat.cast_ne_zero.mpr hn
    simp only [Beam.init, pyDiv, if_neg h0, Option.map_some']
    exact ⟨_, rfl, rfl, rfl, rfl, rfl, rfl⟩

/-- Witness for C10 (amended): at the concrete configuration `gpQ` the
constructor fails for count 0 and succeeds for count 3. -/
theorem beam_init_zero_raises_nonzero_succeeds_witness :
    ((0 : ℕ) = 0 ∧ (3 : ℕ) ≠ 0)
    ∧ Beam.init gpQ 0 (1 : ℚ) = none
    ∧ ∃ b : Beam ℚ, Beam.init gpQ 3 (1 : ℚ) = some b
        ∧ b.ratio = (1 : ℚ) / ((3 : ℕ) : ℚ)
        ∧ b.dt = List.replicate 3 0 ∧ b.dE = List.replicate 3 0
        ∧ b.id = (List.range 3).map (fun i => (i : ℤ) + 1)
        ∧ b.n_macroparticles = 3 :=
  ⟨⟨rfl, by decide⟩,
   (beam_init_zero_raises_nonzero_succeeds gpQ 0 1).1 rfl,
   (beam_init_zero_raises_nonzero_succeeds gpQ 3 1).2 (by decide)⟩

theorem sum_map_filter_range (n : ℕ) (q : ℕ → Bool) (f : ℕ → ℝ) :
    (((List.range n).filter q).map f).sum
      = ∑ i in (Finset.range n).filter (fun i => q i = true), f i := by
  induction n with
  | zero => simp
  | succ n ih =>
    rw [List.range_succ, List.filter_append, List.map_append, List.sum_append,
      Finset.range_succ, Finset.filter_insert]
    cases hq : q n with
    | false => simp [hq, ih]
    | true =>
      rw [if_pos rfl, Finset.sum_insert (by simp)]
      simp [hq, ih, add_comm]

theorem length_filter_range (n : ℕ) (q : ℕ → Bool) :
    ((List.range n).filter q).length
      = ((Finset.range n).filter (fun i => q i = true)).card := by
  induction n with
  | zero => simp
  | succ n ih =>
    rw [List.range_succ, List.filter_append, List.length_append,
      Finset.range_succ, Finset.filter_insert]
    cases hq : q n with
    | false => simp [hq, ih]
    | true =>
      rw [if_pos rfl, Finset.card_insert_of_not_mem (by simp)]
      simp [hq, ih]

theorem aliveFinset_eq_filter (id : List ℤ) :
    (Finset.range id.length).filter (fun i => (id.getD i 0 != 0) = true)
      = aliveFinset id := by
  simp [aliveFinset]

theorem lostFinset_eq_filter (id : List ℤ) :
    (Finset.range id.length).filter (fun i => (id.getD i 0 == 0) = true)
      = lostFinset id := by
  simp [lostFinset]

/-- C2: over the indices with a nonzero `id`, `statistics()` computes the
arithmetic means of `dt` and `dE`, the population standard deviations
(dividing by the alive count), the emittance
`epsn_rms_l = π·sigma_dE·sigma_dt`, and sets `n_macroparticles_lost` to the
number of indices whose `id` is 0. -/
theorem statistics_alive_subset_moments (b : Beam ℝ)
    (hdt : b.dt.length = b.id.length) (hdE : b.dE.length = b.id.length)
    (halive : ∃ j ∈ b.id, j ≠ 0) :
    b.statistics.mean_dt
        = (∑ i in aliveFinset b.id, b.dt.getD i 0) / (aliveFinset b.id).card
    ∧ b.statistics.mean_dE
        = (∑ i in aliveFinset b.id, b.dE.getD i 0) / (aliveFinset b.id).card
    ∧ b.statistics.sigma_dt
        = Real.sqrt ((∑ i in aliveFinset b.id,
            (b.dt.getD i 0 - b.statistics.mean_dt) ^ 2) / (aliveFinset b.id).card)
    ∧ b.statistics.sigma_dE
        = Real.sqrt ((∑ i in aliveFinset b.id,
            (b.dE.getD i 0 - b.statistics.mean_dE) ^ 2) / (aliveFinset b.id).card)
    ∧ b.statistics.epsn_rms_l
        = some (Real.pi * b.statistics.sigma_dE * b.statistics.sigma_dt)
    ∧ b.statistics.n_macroparticles_lost = (lostFinset b.id).card := by
  have hsum : ∀ xs : List ℝ,
      (npSelect xs (npWhere b.id.length (fun i => b.id.getD i 0 != 0))).sum
        = ∑ i in aliveFinset b.id, xs.getD i 0 := by
    intro xs
    rw [npSelect, npWhere, sum_map_filter_range, aliveFinset_eq_filter]
  have hlen :
      (npWhere b.id.length (fun i => b.id.getD i 0 != 0)).length
        = (aliveFinset b.id).card := by
    rw [npWhere, length_filter_range, aliveFinset_eq_filter]
  have hselLen : ∀ xs : List ℝ,
      (npSelect xs (npWhere b.id.length (fun i => b.id.getD i 0 != 0))).length
        = (aliveFinset b.id).card := by
    intro xs; rw [npSelect, List.length_map, hlen]
  have hmean : ∀ xs : List ℝ,
      npMean (npSelect xs (npWhere b.id.length (fun i => b.id.getD i 0 != 0)))
        = (∑ i in aliveFinset b.id, xs.getD i 0) / (aliveFinset b.id).card := by
    intro xs; rw [npMean, hsum, hselLen]
  have hstd : ∀ xs : List ℝ,
      npStd (npSelect xs (npWhere b.id.length (fun i => b.id.getD i 0 != 0)))
        = Real.sqrt ((∑ i in aliveFinset b.id,
            (xs.getD i 0
              - (∑ i in aliveFinset b.id, xs.getD i 0) / (aliveFinset b.id).card) ^ 2)
            / (aliveFinset b.id).card) := by
    intro xs
    rw [npStd, hmean]
    congr 1
    rw [npMean, npSelect, List.map_map, List.length_map, npWhere,
      sum_map_filter_range, length_filter_range, aliveFinset_eq_filter]
    rfl
  have hm1 : b.statistics.mean_dt
      = (∑ i in aliveFinset b.id, b.dt.getD i 0) / (aliveFinset b.id).card := by
    simp only [Beam.statistics]
    exact hmean b.dt
  have hm2 : b.statistics.mean_dE
      = (∑ i in aliveFinset b.id, b.dE.getD i 0) / (aliveFinset b.id).card := by
    simp only [Beam.statistics]
    exact hmean b.dE
  refine ⟨hm1, hm2, ?_, ?_, ?_, ?_⟩
  · rw [hm1]
    simp only [Beam.statistics]
    exact hstd b.dt
  · rw [hm2]
    simp only [Beam.statistics]
    exact hstd b.dE
  · simp only [Beam.statistics]
  · simp only [Beam.statistics]
    rw [npWhere, length_filter_range, lostFinset_eq_filter]

/-- Witness for C2 at the concrete single-particle beam `bR` (all alive):
the hypotheses hold and the emittance equation is obtained from the
theorem. -/
theorem statistics_alive_subset_moments_witness :
    (bR.dt.length = bR.id.length ∧ bR.dE.length = bR.id.length
      ∧ ∃ j ∈ bR.id, j ≠ 0)
    ∧ bR.statistics.epsn_rms_l
        = some (Real.pi * bR.statistics.sigma_dE * bR.statistics.sigma_dt) :=
  ⟨⟨rfl, rfl, by decide⟩,
   (statistics_alive_subset_moments bR rfl rfl (by decide)).2.2.2.2.1⟩

/-- C4: the `Beam` constructor's only per-particle coordinate arrays are
`dt`, `dE`, `id`; `Kick.track` and `Drift.track` touch `beam.theta` (and
`Drift` also `beam.delta`), and `LinearMap.track` touches `beam.z` and
`beam.dp` — attributes `Beam.__init__` never assigns — so each of the three
`track` operations raises `AttributeError` on such a `Beam` instead of
updating `dt`/`dE`. -/
theorem beam_lacks_tracker_coordinates :
    (∀ a ∈ beamCoordinateAttributes, a ∈ beamInitAttributes)
    ∧ ("theta" ∉ beamInitAttributes ∧ "delta" ∉ beamInitAttributes
        ∧ "z" ∉ beamInitAttributes ∧ "dp" ∉ beamInitAttributes)
    ∧ "theta" ∈ kickTrackBeamAttributes
    ∧ "theta" ∈ driftTrackBeamAttributes
    ∧ "delta" ∈ driftTrackBeamAttributes
    ∧ "z" ∈ linearMapTrackBeamAttributes
    ∧ "dp" ∈ linearMapTrackBeamAttributes
    ∧ raisesAttributeError kickTrackBeamAttributes
    ∧ raisesAttributeError driftTrackBeamAttributes
    ∧ raisesAttributeError linearMapTrackBeamAttributes := by
  refine ⟨by decide, by decide, by decide, by decide, by decide, by decide,
    by decide, ⟨"theta", by decide, by decide⟩,
    ⟨"theta", by decide, by decide⟩, ⟨"z", by decide, by decide⟩⟩

/-- C5: `Drift.track` under solver `"full"` maps `theta` elementwise to
`(beta_f/beta_i)·theta + 2π·(1/(1 − eta(delta)·delta) − 1)·(length/circumference)`,
under `"simple"` to `theta + 2π·eta0(alpha_array)·delta·(length/circumference)`;
in both cases only the phase coordinate changes — the ring state and the
`delta`/`dE`/`z`/`dp` coordinates are untouched. -/
theorem drift_track_solver_formulas (r : RingAndRFstation) (b : TrackedBeam) :
    Drift.track { solver := "full" } (r, b)
      = DriftResult.ok (r,
          { b with
            theta := List.zipWith
                       (fun th dl =>
                         r.beta_f r.counter / r.beta_i r.counter * th
                           + 2 * Real.pi * (1 / (1 - r.eta dl * dl) - 1)
                               * (r.length / r.circumference))
                       b.theta b.delta })
    ∧ Drift.track { solver := "simple" } (r, b)
      = DriftResult.ok (r,
          { b with
            theta := List.zipWith
                       (fun th dl =>
                         th + 2 * Real.pi * r.eta0 r.alpha_array * dl
                                * (r.length / r.circumference))
                       b.theta b.delta }) := by
  constructor
  · have hf : (fun th dl =>
        r.beta_f r.counter / r.beta_i r.counter * th
          + 2 * Real.pi * (1 / (1 - r.eta dl * dl) - 1)
              * r.length / r.circumference)
        = (fun th dl =>
            r.beta_f r.counter / r.beta_i r.counter * th
              + 2 * Real.pi * (1 / (1 - r.eta dl * dl) - 1)
                  * (r.length / r.circumference)) := by
      funext th dl; ring
    rw [Drift.track, if_pos rfl, hf]
  · have hf : (fun th dl =>
        th + 2 * Real.pi * r.eta0 r.alpha_array * dl
               * r.length / r.circumference)
        = (fun th dl =>
            th + 2 * Real.pi * r.eta0 r.alpha_array * dl
                   * (r.length / r.circumference)) := by
      funext th dl; ring
    rw [Drift.track, if_neg (by decide), if_pos rfl, hf]

/-- C6: constructing a `Drift` succeeds for any solver string (the selector
is stored verbatim, unvalidated at construction), and every `track` call
with a solver outside {"full", "simple"} terminates the whole process
(`systemExit`) — no default solver, no recoverable exception, checked on
every call. -/
theorem drift_invalid_solver_exits (sol : String)
    (h1 : sol ≠ "full") (h2 : sol ≠ "simple") :
    (Drift.mk sol).solver = sol
    ∧ ∀ s : TrackState,
        Drift.track { solver := sol } s = DriftResult.systemExit := by
  refine ⟨rfl, fun s => ?_⟩
  rw [Drift.track, if_neg h1, if_neg h2]

/-- Witness for C6: the solver string "leapfrog" is neither "full" nor
"simple", and tracking the concrete state with it exits the process. -/
theorem drift_invalid_solver_exits_witness :
    (("leapfrog" : String) ≠ "full" ∧ ("leapfrog" : String) ≠ "simple")
    ∧ Drift.track { solver := "leapfrog" } (ringW, tbeamW)
        = DriftResult.systemExit :=
  ⟨⟨by decide, by decide⟩,
   (drift_invalid_solver_exits ("leapfrog") (by decide) (by decide)).2
     (ringW, tbeamW)⟩

/-- C7: one `Kick_acceleration.track` call adds
`−((beta_i + beta_f)/2)·c·p_increment` to every particle's energy offset and
increments the ring configuration's turn counter by exactly one; no other
ring or beam state changes. -/
theorem kick_acceleration_track_effect (p : ℝ) (r : RingAndRFstation)
    (b : TrackedBeam) :
    Kick_acceleration.track { p_increment := p } (r, b)
      = ({ r with counter := r.counter + 1 },
         { b with
           dE := b.dE.map (fun de =>
             de + -((r.beta_i r.counter + r.beta_f r.counter) / 2)
                    * scipy_c * p) }) := by
  have hf : (fun de =>
      de + -(r.beta_i r.counter + r.beta_f r.counter) / 2 * scipy_c * p)
      = (fun de =>
          de + -((r.beta_i r.counter + r.beta_f r.counter) / 2)
                 * scipy_c * p) := by
    funext de; ring
  simp only [Kick_acceleration.track]
  rw [hf]

/-- C8: `Kick.track` of a `Kick` built from the configuration at harmonic
index `i` adds `e·voltage[i]·sin(harmonic[i]·theta + phi_offset[i])` (with
`e` the elementary charge and `theta` the particle's phase coordinate) to
every particle's energy offset; the ring state and every other particle
coordinate are unchanged. -/
theorem kick_track_formula (r : RingAndRFstation) (i : ℕ)
    (hh : i < r.harmonic.length) (hv : i < r.voltage.length)
    (hp : i < r.phi_offset.length) (s : TrackState) :
    Kick.track (Kick.ofRing r i) s
      = (s.1,
         { s.2 with
           dE := List.zipWith
                   (fun de th =>
                     de + scipy_e * r.voltage.get ⟨i, hv⟩
                            * Real.sin (r.harmonic.get ⟨i, hh⟩ * th
                                + r.phi_offset.get ⟨i, hp⟩))
                   s.2.dE s.2.theta }) := by
  have h1 : r.harmonic.getD i 0 = r.harmonic.get ⟨i, hh⟩ :=
    List.getD_eq_get _ _ hh
  have h2 : r.voltage.getD i 0 = r.voltage.get ⟨i, hv⟩ :=
    List.getD_eq_get _ _ hv
  have h3 : r.phi_offset.getD i 0 = r.phi_offset.get ⟨i, hp⟩ :=
    List.getD_eq_get _ _ hp
  simp only [Kick.track, Kick.ofRing]
  rw [h1, h2, h3]

/-- Witness for C8 at the single-harmonic configuration `ringW`, index 0. -/
theorem kick_track_formula_witness :
    (0 < ringW.harmonic.length ∧ 0 < ringW.voltage.length
      ∧ 0 < ringW.phi_offset.length)
    ∧ (Kick.track (Kick.ofRing ringW 0) (ringW, tbeamW)).1 = ringW := by
  refine ⟨⟨by decide, by decide, by decide⟩, ?_⟩
  have h := kick_track_formula ringW 0 (by decide) (by decide) (by decide)
    (ringW, tbeamW)
  rw [h]

theorem foldl_kick_track_ring (ks : List Kick) (s : TrackState) :
    (ks.foldl (fun st k => Kick.track k st) s).1 = s.1 := by
  induction ks generalizing s with
  | nil => rfl
  | cons k t ih => exact ih (Kick.track k s)

theorem drift_track_valid_ok (sol : String)
    (h : sol = "full" ∨ sol = "simple") (s : TrackState) :
    ∃ b' : TrackedBeam,
      Drift.track { solver := sol } s = DriftResult.ok (s.1, b') := by
  rcases h with rfl | rfl
  · exact ⟨_, by rw [Drift.track, if_pos rfl]⟩
  · exact ⟨_, by rw [Drift.track, if_neg (by decide), if_pos rfl]⟩

/-- C3: one `Longitudinal_tracker.track(beam)` call uses the momentum
increment `p0_f − p0_i` read from the configuration for the acceleration
kick, and runs the assembled pipeline in the fixed order: all kicks (one per
harmonic index, in index order), then the single acceleration kick, then the
drift; for a valid solver the configuration's turn counter advances by
exactly 1 per call, regardless of the number of configured RF harmonics. -/
theorem tracker_track_order_and_counter (r : RingAndRFstation)
    (b : TrackedBeam) (sol : String)
    (hvolt : r.voltage.length = r.harmonic.length)
    (hphi : r.phi_offset.length = r.harmonic.length)
    (hsol : sol = "full" ∨ sol = "simple") :
    ((Longitudinal_tracker.ofRing r sol).kicks
        = (List.range r.harmonic.length).map (fun i => Kick.ofRing r i))
    ∧ (∀ s : TrackState,
        (Longitudinal_tracker.ofRing r sol).track s
          = Drift.track { solver := sol }
              (Kick_acceleration.track { p_increment := s.1.p0_f - s.1.p0_i }
                ((Longitudinal_tracker.ofRing r sol).kicks.foldl
                  (fun st k => Kick.track k st) s)))
    ∧ ∃ b' : TrackedBeam,
        (Longitudinal_tracker.ofRing r sol).track (r, b)
          = DriftResult.ok ({ r with counter := r.counter + 1 }, b') := by
  refine ⟨rfl, fun s => rfl, ?_⟩
  have hs2fst :
      (Kick_acceleration.track { p_increment := r.p0_f - r.p0_i }
        ((Longitudinal_tracker.ofRing r sol).kicks.foldl
          (fun st k => Kick.track k st) (r, b))).1
        = { r with counter := r.counter + 1 } := by
    show ({ ((Longitudinal_tracker.ofRing r sol).kicks.foldl
        (fun st k => Kick.track k st) (r, b)).1 with
          counter := ((Longitudinal_tracker.ofRing r sol).kicks.foldl
            (fun st k => Kick.track k st) (r, b)).1.counter + 1 }
        : RingAndRFstation) = _
    rw [foldl_kick_track_ring]
  obtain ⟨b', hb'⟩ := drift_track_valid_ok sol hsol
    (Kick_acceleration.track { p_increment := r.p0_f - r.p0_i }
      ((Longitudinal_tracker.ofRing r sol).kicks.foldl
        (fun st k => Kick.track k st) (r, b)))
  refine ⟨b', ?_⟩
  show Drift.track { solver := sol }
      (Kick_acceleration.track { p_increment := r.p0_f - r.p0_i }
        ((Longitudinal_tracker.ofRing r sol).kicks.foldl
          (fun st k => Kick.track k st) (r, b))) = _
  rw [hb', hs2fst]

/-- Witness for C3 at the single-harmonic configuration `ringW` with solver
"full": the tracker advances the turn counter from 0 to 1. -/
theorem tracker_track_order_and_counter_witness :
    (ringW.voltage.length = ringW.harmonic.length
      ∧ ringW.phi_offset.length = ringW.harmonic.length
      ∧ (("full" : String) = "full" ∨ ("full" : String) = "simple"))
    ∧ ∃ b' : TrackedBeam,
        (Longitudinal_tracker.ofRing ringW ("full")).track (ringW, tbeamW)
          = DriftResult.ok ({ ringW with counter := ringW.counter + 1 }, b') :=
  ⟨⟨rfl, rfl, Or.inl rfl⟩,
   (tracker_track_order_and_counter ringW tbeamW ("full") rfl rfl
     (Or.inl rfl)).2.2⟩

theorem rotation_invariant_algebra (z dp k c s : ℝ) (hk : k ≠ 0)
    (hcs : c ^ 2 + s ^ 2 = 1) :
    (dp * c + k * z * s) ^ 2 + k ^ 2 * (z * c - k⁻¹ * dp * s) ^ 2
      = dp ^ 2 + k ^ 2 * z ^ 2 := by
  have hk' : k * k⁻¹ = 1 := mul_inv_cancel₀ hk
  linear_combination (dp ^ 2 + k ^ 2 * z ^ 2) * hcs
    + (dp ^ 2 * s ^ 2 * (k * k⁻¹ + 1) - 2 * k * z * dp * c * s) * hk'

/-- C9 (amended): for `Qs ≠ 0` and a particle with slip factor
`eta = alpha − gamma⁻² ≠ 0`, and provided additionally that the synchrotron
frequency is nonzero (`beta ≠ 0` and `circumference ≠ 0`), one
`LinearMap.track` call preserves `dp² + (omega_s/(eta·c))²·z²` exactly: the
`(z, dp)` update is a pure rotation.  (`LinearMap.track` takes no ring/RF
configuration at all, so it reads no turn counter and advances no ring
state.) -/
theorem linearmap_track_rotation_invariant (m : LinearMap) (b : TrackedBeam)
    (i : ℕ) (hz : i < b.z.length) (hdp : i < b.dp.length)
    (hQs : m.Qs ≠ 0) (heta : m.alpha - b.gamma ^ (-2 : ℤ) ≠ 0)
    (hbeta : b.beta ≠ 0) (hcirc : m.circumference ≠ 0) :
    ((m.track b).dp.getD i 0) ^ 2
        + (m.Qs * (2 * Real.pi * b.beta * scipy_c / m.circumference)
            / ((m.alpha - b.gamma ^ (-2 : ℤ)) * scipy_c)) ^ 2
          * ((m.track b).z.getD i 0) ^ 2
      = (b.dp.getD i 0) ^ 2
        + (m.Qs * (2 * Real.pi * b.beta * scipy_c / m.circumference)
            / ((m.alpha - b.gamma ^ (-2 : ℤ)) * scipy_c)) ^ 2
          * (b.z.getD i 0) ^ 2 := by
  have hc0 : scipy_c ≠ 0 := by norm_num [scipy_c]
  have hws : m.Qs * (2 * Real.pi * b.beta * scipy_c / m.circumference) ≠ 0 :=
    mul_ne_zero hQs (div_ne_zero
      (mul_ne_zero (mul_ne_zero (mul_ne_zero two_ne_zero Real.pi_ne_zero)
        hbeta) hc0) hcirc)
  have hzi : (m.track b).z.getD i 0
      = b.z.getD i 0 * Real.cos (2 * Real.pi * m.Qs)
        - (m.alpha - b.gamma ^ (-2 : ℤ)) * scipy_c
            / (m.Qs * (2 * Real.pi * b.beta * scipy_c / m.circumference))
            * b.dp.getD i 0 * Real.sin (2 * Real.pi * m.Qs) := by
    simp only [LinearMap.track]
    exact getD_zipWith _ b.z b.dp i hz hdp 0 0 0
  have hdpi : (m.track b).dp.getD i 0
      = b.dp.getD i 0 * Real.cos (2 * Real.pi * m.Qs)
        + m.Qs * (2 * Real.pi * b.beta * scipy_c / m.circumference)
            / (m.alpha - b.gamma ^ (-2 : ℤ)) / scipy_c
            * b.z.getD i 0 * Real.sin (2 * Real.pi * m.Qs) := by
    simp only [LinearMap.track]
    exact getD_zipWith _ b.z b.dp i hz hdp 0 0 0
  rw [hzi, hdpi]
  have e1 : m.Qs * (2 * Real.pi * b.beta * scipy_c / m.circumference)
      / (m.alpha - b.gamma ^ (-2 : ℤ)) / scipy_c
      = m.Qs * (2 * Real.pi * b.beta * scipy_c / m.circumference)
          / ((m.alpha - b.gamma ^ (-2 : ℤ)) * scipy_c) := div_div _ _ _
  have e2 : (m.alpha - b.gamma ^ (-2 : ℤ)) * scipy_c
      / (m.Qs * (2 * Real.pi * b.beta * scipy_c / m.circumference))
      = (m.Qs * (2 * Real.pi * b.beta * scipy_c / m.circumference)
          / ((m.alpha - b.gamma ^ (-2 : ℤ)) * scipy_c))⁻¹ :=
    (inv_div _ _).symm
  rw [e1, e2]
  exact rotation_invariant_algebra (b.z.getD i 0) (b.dp.getD i 0) _ _ _
    (div_ne_zero hws (mul_ne_zero heta hc0))
    (Real.cos_sq_add_sin_sq _)

/-- Witness for C9 (amended) at `lmapW` (`Qs = 1`, `alpha = 2`,
`circumference = 1`) and the unit-beta single-particle beam `tbeamW`. -/
theorem linearmap_track_rotation_invariant_witness :
    (lmapW.Qs ≠ 0 ∧ (lmapW.alpha - tbeamW.gamma ^ (-2 : ℤ)) ≠ 0
      ∧ tbeamW.beta ≠ 0 ∧ lmapW.circumference ≠ 0
      ∧ 0 < tbeamW.z.length ∧ 0 < tbeamW.dp.length)
    ∧ ((lmapW.track tbeamW).dp.getD 0 0) ^ 2
        + (lmapW.Qs * (2 * Real.pi * tbeamW.beta * scipy_c / lmapW.circumference)
            / ((lmapW.alpha - tbeamW.gamma ^ (-2 : ℤ)) * scipy_c)) ^ 2
          * ((lmapW.track tbeamW).z.getD 0 0) ^ 2
      = (tbeamW.dp.getD 0 0) ^ 2
        + (lmapW.Qs * (2 * Real.pi * tbeamW.beta * scipy_c / lmapW.circumference)
            / ((lmapW.alpha - tbeamW.gamma ^ (-2 : ℤ)) * scipy_c)) ^ 2
          * (tbeamW.z.getD 0 0) ^ 2 := by
  have hQs : lmapW.Qs ≠ 0 := by norm_num [lmapW]
  have hE : (lmapW.alpha - tbeamW.gamma ^ (-2 : ℤ)) ≠ 0 := by
    norm_num [lmapW, tbeamW]
  have hB : tbeamW.beta ≠ 0 := by norm_num [tbeamW]
  have hCir : lmapW.circumference ≠ 0 := by norm_num [lmapW]
  exact ⟨⟨hQs, hE, hB, hCir, by decide, by decide⟩,
    linearmap_track_rotation_invariant lmapW tbeamW 0 (by decide) (by decide)
      hQs hE hB hCir⟩

/-- C9 counterexample: for `lmapC` (`Qs = 1/4`, so a quarter-turn rotation)
and the degenerate beam `tbeamC` with `beta = 0` (hence `omega_s = 0`) but
`Qs ≠ 0` and `eta = 1 ≠ 0`, the quantity `dp² + (omega_s/(eta·c))²·z²` is 1
before the call and 0 after it: the claim as stated (quantifying over every
beam) fails without the extra nondegeneracy hypotheses.  (On this input the
Python code raises `ZeroDivisionError` from `eta·c/omega_s`, so it does not
preserve the quantity either.) -/
theorem linearmap_rotation_counterexample :
    lmapC.Qs ≠ 0
    ∧ (lmapC.alpha - tbeamC.gamma ^ (-2 : ℤ)) ≠ 0
    ∧ ¬ (((lmapC.track tbeamC).dp.getD 0 0) ^ 2
          + (lmapC.Qs * (2 * Real.pi * tbeamC.beta * scipy_c / lmapC.circumference)
              / ((lmapC.alpha - tbeamC.gamma ^ (-2 : ℤ)) * scipy_c)) ^ 2
            * ((lmapC.track tbeamC).z.getD 0 0) ^ 2
        = (tbeamC.dp.getD 0 0) ^ 2
          + (lmapC.Qs * (2 * Real.pi * tbeamC.beta * scipy_c / lmapC.circumference)
              / ((lmapC.alpha - tbeamC.gamma ^ (-2 : ℤ)) * scipy_c)) ^ 2
            * (tbeamC.z.getD 0 0) ^ 2) := by
  have hcosq : Real.cos (2 * Real.pi * (1 / 4 : ℝ)) = 0 := by
    have h : 2 * Real.pi * (1 / 4 : ℝ) = Real.pi / 2 := by ring
    rw [h, Real.cos_pi_div_two]
  refine ⟨by norm_num [lmapC], by norm_num [lmapC, tbeamC], ?_⟩
  have h1 : (lmapC.track tbeamC).dp.getD 0 0 = 0 := by
    simp only [LinearMap.track, lmapC, tbeamC]
    norm_num [hcosq]
  have h2 : (lmapC.track tbeamC).z.getD 0 0 = 0 := by
    simp only [LinearMap.track, lmapC, tbeamC]
    norm_num
  intro hEq
  rw [h1, h2] at hEq
  norm_num [tbeamC] at hEq

end BLonD
